import Mathlib

/-!
Shallow embedding of the pyxel-3d software rendering pipeline
(`threed.py`, `wireframe.py`, `wireframe_renderer.py`,
`hidden_line_renderer.py`, `gouraud_renderer.py`, `z_gouraud_renderer.py`,
`phong_renderer.py`) and proofs about it.

Modelling conventions:
* Python floats become exact rationals (`ℚ`); Python ints become `ℤ`/`ℕ`.
* Trigonometric functions are not rational, so every definition that the
  source feeds through `math.sin`/`math.cos` is parameterised by functions
  `sind cosd : ℚ → ℚ` standing for `fun d => Real.sin (d * π / 180)` and
  `fun d => Real.cos (d * π / 180)`; likewise `normF : Vec3 → Vec3` stands
  for euclidean normalisation `v ↦ v / ‖v‖` wherever the source divides a
  vector by its `math.sqrt` length (the source's `length == 0` guards are
  modelled by the exact test `sumSq v = 0`, which over the reals is
  equivalent).
* Python's float division raises `ZeroDivisionError` exactly on a zero
  divisor; `Camera.project`, the one place in the sources where a zero
  divisor is reachable, therefore returns an `Option`, with `none` marking
  the raised exception.
* Python's `int(...)` on a float truncates toward zero: `pyInt`.
-/

abbrev Vec3 : Type := ℚ × ℚ × ℚ

def vsub (a b : Vec3) : Vec3 := (a.1 - b.1, a.2.1 - b.2.1, a.2.2 - b.2.2)

def vadd (a b : Vec3) : Vec3 := (a.1 + b.1, a.2.1 + b.2.1, a.2.2 + b.2.2)

/-- The cross product as written inline throughout the sources:
`nx = uy*vz - uz*vy; ny = uz*vx - ux*vz; nz = ux*vy - uy*vx`. -/
def cross (u v : Vec3) : Vec3 :=
  (u.2.1 * v.2.2 - u.2.2 * v.2.1,
   u.2.2 * v.1 - u.1 * v.2.2,
   u.1 * v.2.1 - u.2.1 * v.1)

def sumSq (v : Vec3) : ℚ := v.1 * v.1 + v.2.1 * v.2.1 + v.2.2 * v.2.2

/-- Python `int(q)` for a real/rational `q`: truncation toward zero. -/
def pyInt (q : ℚ) : ℤ := if 0 ≤ q then ⌊q⌋ else ⌈q⌉

/-- `rotate_xyz` from `threed.py` (alias `rotate_xyz_fast`): the composite
rotation matrix applied to `(X, Y, Z)`, with `sind`/`cosd` standing for
sine/cosine of an angle given in degrees. -/
def rotate_xyz (sind cosd : ℚ → ℚ) (X Y Z RX RY RZ : ℚ) : Vec3 :=
  let CRX := cosd RX
  let SRX := sind RX
  let CRY := cosd RY
  let SRY := sind RY
  let CRZ := cosd RZ
  let SRZ := sind RZ
  let R00 := CRY * CRZ
  let R01 := SRX * SRY * CRZ - CRX * SRZ
  let R02 := CRX * SRY * CRZ + SRX * SRZ
  let R10 := CRY * SRZ
  let R11 := SRX * SRY * SRZ + CRX * CRZ
  let R12 := CRX * SRY * SRZ - SRX * CRZ
  let R20 := -SRY
  let R21 := SRX * CRY
  let R22 := CRX * CRY
  (X * R00 + Y * R01 + Z * R02,
   X * R10 + Y * R11 + Z * R12,
   X * R20 + Y * R21 + Z * R22)

/-- `Camera` from `threed.py`.  `AX`/`AY` are stored directly instead of
being derived from the vertical FOV through `tan` (which is not rational);
`cx`, `cy` are the integer screen-centre coordinates `screen_w // 2`,
`screen_h // 2`. -/
structure Camera where
  tx : ℚ
  ty : ℚ
  tz : ℚ
  rx : ℚ
  ry : ℚ
  rz : ℚ
  AX : ℚ
  AY : ℚ
  cx : ℤ
  cy : ℤ
  scale : ℚ

/-- `Camera.world_to_camera`: translate by the camera position, then rotate. -/
def Camera.world_to_camera (sind cosd : ℚ → ℚ) (cam : Camera) (p : Vec3) : Vec3 :=
  rotate_xyz sind cosd (p.1 - cam.tx) (p.2.1 - cam.ty) (p.2.2 - cam.tz)
    cam.rx cam.ry cam.rz

/-- `Camera.project`: `sx = x / z; sy = y / z;
return (int(cx + sx*scale), int(cy - sy*scale))`.  Python float division
raises `ZeroDivisionError` exactly when `z = 0`, modelled here by `none`. -/
def Camera.project (cam : Camera) (x y z : ℚ) : Option (ℤ × ℤ) :=
  if z = 0 then none
  else
    let sx := x / z
    let sy := y / z
    some (pyInt ((cam.cx : ℚ) + sx * cam.scale), pyInt ((cam.cy : ℚ) - sy * cam.scale))

/-- `Mesh` from `threed.py`.  In the source `vertex_normals` is populated at
construction by `compute_vertex_normals(points)` (which normalises each
point's own position with `math.sqrt`); here the field simply holds the
stored list, and theorems quantify over its contents. -/
structure Mesh where
  points : List Vec3
  segments : List (ℕ × ℕ)
  faces : List (ℕ × ℕ × ℕ)
  vertex_normals : List Vec3
  tx : ℚ
  ty : ℚ
  tz : ℚ
  rx : ℚ
  ry : ℚ
  rz : ℚ
  scale : ℚ

/-- `Mesh.local_to_world`: uniform scale, local rotation, then translation. -/
def Mesh.local_to_world (sind cosd : ℚ → ℚ) (m : Mesh) (p : Vec3) : Vec3 :=
  let q := rotate_xyz sind cosd (p.1 * m.scale) (p.2.1 * m.scale) (p.2.2 * m.scale)
    m.rx m.ry m.rz
  (q.1 + m.tx, q.2.1 + m.ty, q.2.2 + m.tz)

/-- The camera-space position of one mesh point, as computed at the top of
every renderer's `draw_mesh`: `local_to_world` then `world_to_camera`. -/
def camPoint (sind cosd : ℚ → ℚ) (cam : Camera) (m : Mesh) (p : Vec3) : Vec3 :=
  cam.world_to_camera sind cosd (m.local_to_world sind cosd p)

def camPoints (sind cosd : ℚ → ℚ) (cam : Camera) (m : Mesh) : List Vec3 :=
  m.points.map (camPoint sind cosd cam m)

/-- The 4-bit region code computed (twice, once per endpoint) inside
`clip_segment` in `threed.py`: bit 1 for `x < -AX*z`, bit 2 for `x > AX*z`,
bit 4 for `y < -AY*z`, bit 8 for `y > AY*z`, accumulated with `|=`. -/
def regionCode (AX AY x y z : ℚ) : ℕ :=
  (if x < -AX * z then 1 else 0) |||
  (if x > AX * z then 2 else 0) |||
  (if y < -AY * z then 4 else 0) |||
  (if y > AY * z then 8 else 0)

/-- One structure for `clip_segment`'s return tuple `(F, X0, Y0, Z0, X1, Y1, Z1)`. -/
structure ClipResult where
  F : ℕ
  X0 : ℚ
  Y0 : ℚ
  Z0 : ℚ
  X1 : ℚ
  Y1 : ℚ
  Z1 : ℚ
deriving DecidableEq, Repr

/-- The plane-intersection update of `clip_segment`: given the (nonzero)
region code `C0` of the endpoint to move, compute the parameter `T` for the
first violated plane in the fixed order left, right, bottom, top, and move
point 0 to the intersection. -/
def clipAdvance (AX AY : ℚ) (C0 : ℕ) (X0 Y0 Z0 X1 Y1 Z1 : ℚ) : ℚ × ℚ × ℚ :=
  let T :=
    if C0 &&& 1 ≠ 0 then (-X0 - AX * Z0) / ((X1 - X0) + AX * (Z1 - Z0))
    else if C0 &&& 2 ≠ 0 then (AX * Z0 - X0) / ((X1 - X0) - AX * (Z1 - Z0))
    else if C0 &&& 4 ≠ 0 then (-Y0 - AY * Z0) / ((Y1 - Y0) + AY * (Z1 - Z0))
    else (AY * Z0 - Y0) / ((Y1 - Y0) - AY * (Z1 - Z0))
  (X0 + (X1 - X0) * T, Y0 + (Y1 - Y0) * T, Z0 + (Z1 - Z0) * T)

/-- The body of `clip_segment`'s `for _ in range(1, 100)` loop, with the
remaining iteration count made explicit.  Exhausting the fuel corresponds to
the loop's `else: return 1, ...` clause.  The source's endpoint swap when
`C0 == 0` is realised by calling `clipAdvance` on point 1 and recursing with
the roles exchanged, which is the same state the Python SWAP produces. -/
def clipLoop (AX AY : ℚ) : ℕ → ℚ → ℚ → ℚ → ℚ → ℚ → ℚ → ClipResult
  | 0, X0, Y0, Z0, X1, Y1, Z1 => ⟨1, X0, Y0, Z0, X1, Y1, Z1⟩
  | fuel + 1, X0, Y0, Z0, X1, Y1, Z1 =>
    let C1 := regionCode AX AY X1 Y1 Z1
    let C0 := regionCode AX AY X0 Y0 Z0
    if C0 ||| C1 = 0 then ⟨0, X0, Y0, Z0, X1, Y1, Z1⟩
    else if C0 &&& C1 ≠ 0 then ⟨1, X0, Y0, Z0, X1, Y1, Z1⟩
    else if C0 = 0 then
      let q := clipAdvance AX AY C1 X1 Y1 Z1 X0 Y0 Z0
      clipLoop AX AY fuel q.1 q.2.1 q.2.2 X0 Y0 Z0
    else
      let q := clipAdvance AX AY C0 X0 Y0 Z0 X1 Y1 Z1
      clipLoop AX AY fuel q.1 q.2.1 q.2.2 X1 Y1 Z1

/-- `clip_segment` from `threed.py` (alias `clip_segment_fast`):
`range(1, 100)` performs 99 iterations. -/
def clip_segment (X0 Y0 Z0 X1 Y1 Z1 AX AY : ℚ) : ClipResult :=
  clipLoop AX AY 99 X0 Y0 Z0 X1 Y1 Z1

/-- `tuple(sorted((i, j)))` used for edge deduplication in
`WireframeRenderer.draw_mesh`. -/
def sortedPair (i j : ℕ) : ℕ × ℕ := if i ≤ j then (i, j) else (j, i)

/-- Edge derivation from faces in `WireframeRenderer.draw_mesh`; the Python
`set` is modelled as a deduplicated list (iteration order of a Python set is
unspecified; only the collection of drawn segments matters). -/
def faceEdges (faces : List (ℕ × ℕ × ℕ)) : List (ℕ × ℕ) :=
  (faces.flatMap fun f =>
    [sortedPair f.1 f.2.1, sortedPair f.2.1 f.2.2, sortedPair f.2.2 f.1]).dedup

/-- One iteration of `WireframeRenderer.draw_mesh`'s segment loop, acting on
two camera-space endpoints: skip when both endpoints are behind the camera,
clip, skip on reject, otherwise project both endpoints and emit the screen
line.  `none` marks a raised exception (`ZeroDivisionError` inside
`Camera.project`); `some []` a silently skipped segment. -/
def drawSegment (cam : Camera) (c0 c1 : Vec3) : Option (List ((ℤ × ℤ) × (ℤ × ℤ))) :=
  if c0.2.2 ≤ 0 ∧ c1.2.2 ≤ 0 then some []
  else
    let r := clip_segment c0.1 c0.2.1 c0.2.2 c1.1 c1.2.1 c1.2.2 cam.AX cam.AY
    if r.F ≠ 0 then some []
    else
      match cam.project r.X0 r.Y0 r.Z0, cam.project r.X1 r.Y1 r.Z1 with
      | some s0, some s1 => some [(s0, s1)]
      | _, _ => none

/-- `WireframeRenderer.draw_mesh`: transform all points into camera space,
take the explicit segment list (or derive the edges from faces when the
segment list is empty and faces exist), and run the segment loop, collecting
the drawn screen lines.  `none` propagates a raised exception. -/
def wireDrawMesh (sind cosd : ℚ → ℚ) (cam : Camera) (m : Mesh) :
    Option (List ((ℤ × ℤ) × (ℤ × ℤ))) :=
  let pts := camPoints sind cosd cam m
  let segs := if m.segments = [] ∧ m.faces ≠ [] then faceEdges m.faces else m.segments
  (segs.mapM fun ij =>
      drawSegment cam (pts.getD ij.1 (0, 0, 0)) (pts.getD ij.2 (0, 0, 0))).map
    fun ls => ls.flatten

/-- Vertex generation of `generate_sphere_mesh_with_faces` in `wireframe.py`:
the double loop `for lat in range(lat_steps + 1): for lon in range(lon_steps)`.
`s`/`c` stand for `math.sin`/`math.cos` (in radians) and `piq` for `math.pi`,
none of which are rational. -/
def generate_sphere_points (s c : ℚ → ℚ) (piq radius : ℚ)
    (lat_steps lon_steps : ℕ) : List Vec3 :=
  (List.range (lat_steps + 1)).flatMap fun (lat : ℕ) =>
    (List.range lon_steps).map fun (lon : ℕ) =>
      let theta := piq * lat / lat_steps
      let phi := 2 * piq * lon / lon_steps
      (radius * s theta * c phi, radius * c theta, radius * s theta * s phi)

/-- The `idx` helper of `generate_sphere_mesh_with_faces`:
`lat * lon_steps + (lon % lon_steps)`. -/
def sphereIdx (lon_steps lat lon : ℕ) : ℕ := lat * lon_steps + lon % lon_steps

/-- Face generation of `generate_sphere_mesh_with_faces`: per latitude band
and longitude step, one quad split into two triangles. -/
def generate_sphere_faces (lat_steps lon_steps : ℕ) : List (ℕ × ℕ × ℕ) :=
  (List.range lat_steps).flatMap fun lat =>
    (List.range lon_steps).flatMap fun lon =>
      let i0 := sphereIdx lon_steps lat lon
      let i1 := sphereIdx lon_steps (lat + 1) lon
      let i2 := sphereIdx lon_steps lat (lon + 1)
      let i3 := sphereIdx lon_steps (lat + 1) (lon + 1)
      [(i0, i1, i2), (i2, i1, i3)]

/-- The wireframe-overlay ink choice in `HiddenLineRenderer.draw_mesh`
(lines 90–99): faces with camera-space normal `nz <= 0` are outlined with
colour 7 (white — the source comment reads front faces white), the others
with colour 1 (a dark colour). -/
def hlWireInk (nz : ℚ) : ℤ := if nz ≤ 0 then 7 else 1

/-- The three `pyxel.line` calls drawn for one face in the wired branch of
`HiddenLineRenderer.draw_mesh`: the triangle's three screen edges, each in
the ink selected by the sign of the face normal's z component. -/
def hlWiredFaceLines (p0 p1 p2 : ℤ × ℤ) (nz : ℚ) :
    List ((ℤ × ℤ) × (ℤ × ℤ) × ℤ) :=
  [(p0, p1, hlWireInk nz), (p1, p2, hlWireInk nz), (p2, p0, hlWireInk nz)]

/-- The face-survival filter of `HiddenLineRenderer.draw_mesh` (steps 4):
drop faces whose three vertices all have camera-space `z <= 0`, and faces
with zero-length normal (`n_len == 0`, i.e. `sumSq n = 0` exactly); keep the
(unnormalised) camera-space normal z component, whose sign agrees with the
normalised one since `n_len > 0`.  The depth sort and the `sqrt` intensity
are omitted here: neither affects which edges are drawn in which ink. -/
def hlSurvivingFaces (camPts : List Vec3) (faces : List (ℕ × ℕ × ℕ)) :
    List (ℚ × (ℕ × ℕ × ℕ)) :=
  faces.filterMap fun f =>
    let v0 := camPts.getD f.1 (0, 0, 0)
    let v1 := camPts.getD f.2.1 (0, 0, 0)
    let v2 := camPts.getD f.2.2 (0, 0, 0)
    if v0.2.2 ≤ 0 ∧ v1.2.2 ≤ 0 ∧ v2.2.2 ≤ 0 then none
    else
      let n := cross (vsub v1 v0) (vsub v2 v0)
      if sumSq n = 0 then none
      else some (n.2.2, f)

/-- The wired branch of `HiddenLineRenderer.draw_mesh` step 5: every
surviving face contributes its three outlined screen edges. -/
def hlDrawWired (proj : List (ℤ × ℤ)) (info : List (ℚ × (ℕ × ℕ × ℕ))) :
    List ((ℤ × ℤ) × (ℤ × ℤ) × ℤ) :=
  info.flatMap fun e =>
    hlWiredFaceLines (proj.getD e.2.1 (-9999, -9999))
      (proj.getD e.2.2.1 (-9999, -9999)) (proj.getD e.2.2.2 (-9999, -9999)) e.1

/-- Light/shading configuration of `ZBufferedGouraudRenderer` (the
constructor normalises `light_dir` with `math.sqrt`; the stored normalised
vector is what the field holds). -/
structure ZGouraudCfg where
  lx : ℚ
  ly : ℚ
  lz : ℚ
  ambient : ℚ
  shade_levels : ℕ

/-- `ZBufferedGouraudRenderer.compute_intensity`. -/
def ZGouraudCfg.compute_intensity (r : ZGouraudCfg) (nx ny nz : ℚ) : ℚ :=
  let dot := nx * r.lx + ny * r.ly + nz * r.lz
  let dot := if dot < 0 then 0 else dot
  let i := r.ambient + dot * (1 - r.ambient)
  let i := if i < 0 then 0 else i
  if i > 1 then 1 else i

/-- `GouraudRenderer.compute_intensity` (the scanline Gouraud renderer):
`min(1.0, ambient + clamped_dot * 0.8)`. -/
def GouraudCfg.compute_intensity (ambient lx ly lz : ℚ) (n : Vec3) : ℚ :=
  let dot := n.1 * lx + n.2.1 * ly + n.2.2 * lz
  let dot := if dot < 0 then 0 else dot
  min 1 (ambient + dot * (8 / 10))

/-- The per-vertex intensity list of `GouraudRenderer.draw_mesh`
(lines 103–106): computed directly from `mesh.vertex_normals`. -/
def gouraudVertexIntens (ambient lx ly lz : ℚ) (m : Mesh) : List ℚ :=
  m.vertex_normals.map (GouraudCfg.compute_intensity ambient lx ly lz)

/-- `vnorm[idx] = vnorm[idx] + n` on the accumulator list. -/
def addAt (l : List Vec3) (i : ℕ) (n : Vec3) : List Vec3 :=
  l.set i (vadd (l.getD i (0, 0, 0)) n)

/-- The per-vertex normal accumulation shared verbatim by
`ZBufferedGouraudRenderer.draw_mesh` (step 3) and `PhongRenderer.draw_mesh`:
starting from zero vectors, add each face's camera-space cross-product
normal to the face's three vertices. -/
def accumVertexNormals (pts : List Vec3) (faces : List (ℕ × ℕ × ℕ)) : List Vec3 :=
  faces.foldl
    (fun acc f =>
      let v0 := pts.getD f.1 (0, 0, 0)
      let v1 := pts.getD f.2.1 (0, 0, 0)
      let v2 := pts.getD f.2.2 (0, 0, 0)
      let n := cross (vsub v1 v0) (vsub v2 v0)
      addAt (addAt (addAt acc f.1 n) f.2.1 n) f.2.2 n)
    (pts.map fun _ => ((0 : ℚ), (0 : ℚ), (0 : ℚ)))

/-- The per-vertex intensities computed inside
`ZBufferedGouraudRenderer.draw_mesh`: camera-space points, accumulated
normals, then `compute_intensity` of the normalised normal — with the
source's `length == 0.0` fallback to the normal `(0, 0, 1)`. -/
def zgDrawMeshIntens (sind cosd : ℚ → ℚ) (normF : Vec3 → Vec3) (cam : Camera)
    (r : ZGouraudCfg) (m : Mesh) : List ℚ :=
  let pts := camPoints sind cosd cam m
  let vnorm := accumVertexNormals pts m.faces
  vnorm.map fun n =>
    if sumSq n = 0 then r.compute_intensity 0 0 1
    else
      let u := normF n
      r.compute_intensity u.1 u.2.1 u.2.2

/-- The per-vertex normals computed inside `PhongRenderer.draw_mesh`
(lines 207–232): same accumulation, then normalise, with fallback `(0,0,1)`
when the accumulated length is zero (`L > 0` test). -/
def phongDrawMeshNormals (sind cosd : ℚ → ℚ) (normF : Vec3 → Vec3)
    (cam : Camera) (m : Mesh) : List Vec3 :=
  let pts := camPoints sind cosd cam m
  let vnorm := accumVertexNormals pts m.faces
  vnorm.map fun n => if sumSq n = 0 then ((0 : ℚ), (0 : ℚ), (1 : ℚ)) else normF n

/-- Light/shading configuration of `PhongRenderer` (stored normalised light
direction, coefficients, integer shininess exponent). -/
structure PhongCfg where
  lx : ℚ
  ly : ℚ
  lz : ℚ
  ambient : ℚ
  diffuse : ℚ
  specular : ℚ
  shininess : ℕ
  shade_levels : ℕ

/-- `PhongRenderer.phong_intensity`: Lambert diffuse clamped at 0; specular
from the reflection vector `R = 2*diff*N - L` dotted with the fixed view
direction `(0, 0, 1)` (so `V·R = rz`), raised to the shininess power when
positive and `diff > 0`; result clamped to `[0, 1]`. -/
def phong_intensity (r : PhongCfg) (nx ny nz : ℚ) : ℚ :=
  let diff0 := nx * r.lx + ny * r.ly + nz * r.lz
  let diff := if diff0 < 0 then 0 else diff0
  let spec :=
    if 0 < diff then
      let rz := 2 * diff * nz - r.lz
      if 0 < rz then rz ^ r.shininess * r.specular else 0
    else 0
  max 0 (min 1 (r.ambient + diff * r.diffuse + spec))

/-- `hash01` from `phong_renderer.py`:
`(((x * 73856093) ^ (y * 19349663)) & 0xFF) / 255.0`.  Pixel coordinates in
the rasteriser loops are nonnegative (the bounding box is clamped at 0). -/
def hash01 (x y : ℕ) : ℚ :=
  (((((x * 73856093) ^^^ (y * 19349663)) &&& 255 : ℕ)) : ℚ) / 255

/-- The dithering branch of `PhongRenderer._draw_triangle` (lines 169–182):
split `v = c * (shade_levels - 1)` into integer part `s0` and fractional
remainder, and round up to `min(s0 + 1, shade_levels - 1)` exactly when the
position hash lies below the remainder. -/
def ditherShade (levels : ℕ) (c : ℚ) (x y : ℕ) : ℤ :=
  let v := c * ((levels : ℚ) - 1)
  let s0 := pyInt v
  let frac := v - s0
  if hash01 x y < frac then min (s0 + 1) ((levels : ℤ) - 1) else s0

/-- The same pixel-shading step with the interpreter's hidden `random`
module state threaded through explicitly (`rand01` models `random.random`,
as in the commented-out alternative in the source).  The committed code
consults only `hash01`, so the state passes through untouched. -/
def ditherPixel (rand01 : ℕ → ℚ × ℕ) (rng : ℕ) (levels : ℕ) (c : ℚ)
    (x y : ℕ) : ℤ × ℕ :=
  (ditherShade levels c x y, rng)

lemma lor_eq_zero_parts {a b : ℕ} (h : a ||| b = 0) : a = 0 ∧ b = 0 := by
  constructor <;>
    refine Nat.eq_of_testBit_eq fun i => ?_ <;>
    · have hh := congrArg (fun n => n.testBit i) h
      simp only [Nat.testBit_or, Nat.zero_testBit, Bool.or_eq_false_iff] at hh
      simp [hh.1, hh.2]

lemma regionCode_eq_zero_iff (AX AY x y z : ℚ) :
    regionCode AX AY x y z = 0 ↔ |x| ≤ AX * z ∧ |y| ≤ AY * z := by
  rw [regionCode]
  split_ifs with h1 h2 h3 h4 <;> simp [abs_le] <;>
    first
      | (intro ha hb; linarith)
      | (intro ha hb hc; linarith)
      | (constructor <;> constructor <;> linarith)

lemma clipLoop_accept (AX AY : ℚ) (fuel : ℕ) {X0 Y0 Z0 X1 Y1 Z1 : ℚ}
    (h0 : regionCode AX AY X0 Y0 Z0 = 0) (h1 : regionCode AX AY X1 Y1 Z1 = 0) :
    clipLoop AX AY (fuel + 1) X0 Y0 Z0 X1 Y1 Z1 = ⟨0, X0, Y0, Z0, X1, Y1, Z1⟩ := by
  simp [clipLoop, h0, h1]

lemma clipLoop_reject (AX AY : ℚ) (fuel : ℕ) {X0 Y0 Z0 X1 Y1 Z1 : ℚ}
    (h : regionCode AX AY X0 Y0 Z0 &&& regionCode AX AY X1 Y1 Z1 ≠ 0) :
    clipLoop AX AY (fuel + 1) X0 Y0 Z0 X1 Y1 Z1 = ⟨1, X0, Y0, Z0, X1, Y1, Z1⟩ := by
  have hor : ¬ regionCode AX AY X0 Y0 Z0 ||| regionCode AX AY X1 Y1 Z1 = 0 := by
    intro hz
    obtain ⟨h0, h1⟩ := lor_eq_zero_parts hz
    rw [h0, h1] at h
    exact h rfl
  simp [clipLoop, hor, h]

lemma clipLoop_flag (AX AY : ℚ) :
    ∀ (fuel : ℕ) (X0 Y0 Z0 X1 Y1 Z1 : ℚ),
      (clipLoop AX AY fuel X0 Y0 Z0 X1 Y1 Z1).F = 0 ∨
      (clipLoop AX AY fuel X0 Y0 Z0 X1 Y1 Z1).F = 1 := by
  intro fuel
  induction fuel with
  | zero => intro X0 Y0 Z0 X1 Y1 Z1; right; rfl
  | succ n ih =>
    intro X0 Y0 Z0 X1 Y1 Z1
    rw [clipLoop]
    split_ifs with h1 h2 h3
    · left; rfl
    · right; rfl
    · exact ih _ _ _ _ _ _
    · exact ih _ _ _ _ _ _

/-- Claim C4: a segment whose two endpoints both satisfy `|x| ≤ AX·z` and
`|y| ≤ AY·z` (both 4-bit outside-codes 0) is accepted by `clip_segment`
unmodified (flag 0 with the original six coordinates); and whenever the
bitwise AND of the two endpoint codes is non-zero, `clip_segment` rejects
the segment (flag 1). -/
theorem clip_segment_accept_and_reject (X0 Y0 Z0 X1 Y1 Z1 AX AY : ℚ) :
    (|X0| ≤ AX * Z0 → |Y0| ≤ AY * Z0 → |X1| ≤ AX * Z1 → |Y1| ≤ AY * Z1 →
      clip_segment X0 Y0 Z0 X1 Y1 Z1 AX AY = ⟨0, X0, Y0, Z0, X1, Y1, Z1⟩) ∧
    (regionCode AX AY X0 Y0 Z0 &&& regionCode AX AY X1 Y1 Z1 ≠ 0 →
      (clip_segment X0 Y0 Z0 X1 Y1 Z1 AX AY).F = 1) := by
  constructor
  · intro ha hb hc hd
    have h0 : regionCode AX AY X0 Y0 Z0 = 0 := (regionCode_eq_zero_iff _ _ _ _ _).mpr ⟨ha, hb⟩
    have h1 : regionCode AX AY X1 Y1 Z1 = 0 := (regionCode_eq_zero_iff _ _ _ _ _).mpr ⟨hc, hd⟩
    rw [clip_segment, (rfl : (99 : ℕ) = 98 + 1), clipLoop_accept AX AY 98 h0 h1]
  · intro h
    rw [clip_segment, (rfl : (99 : ℕ) = 98 + 1), clipLoop_reject AX AY 98 h]

theorem clip_segment_accept_and_reject_witness :
    (|(0 : ℚ)| ≤ 1 * 1 ∧ |(0 : ℚ)| ≤ 1 * 2 ∧
      regionCode 1 1 5 0 1 &&& regionCode 1 1 5 0 2 ≠ 0) ∧
    clip_segment 0 0 1 0 0 2 1 1 = ⟨0, 0, 0, 1, 0, 0, 2⟩ ∧
    (clip_segment 5 0 1 5 0 2 1 1).F = 1 := by
  have hc1 : regionCode 1 1 5 0 1 = 2 := by
    rw [regionCode]; norm_num
  have hc2 : regionCode 1 1 5 0 2 = 2 := by
    rw [regionCode]; norm_num
  have hand : regionCode 1 1 5 0 1 &&& regionCode 1 1 5 0 2 ≠ 0 := by
    rw [hc1, hc2]; decide
  refine ⟨⟨by norm_num, by norm_num, hand⟩, ?_, ?_⟩
  · exact (clip_segment_accept_and_reject 0 0 1 0 0 2 1 1).1 (by norm_num) (by norm_num)
      (by norm_num) (by norm_num)
  · exact (clip_segment_accept_and_reject 5 0 1 5 0 2 1 1).2 hand

/-- Claim C5: `clip_segment` always terminates with an explicit flag — the
loop runs at most the 99 iterations of `range(1, 100)`, its result flag is
always 0 or 1, and exhausting the iteration cap (fuel 0) returns the reject
flag `F = 1` with the current coordinates, never looping forever. -/
theorem clip_segment_terminates :
    (∀ X0 Y0 Z0 X1 Y1 Z1 AX AY : ℚ,
      (clip_segment X0 Y0 Z0 X1 Y1 Z1 AX AY).F = 0 ∨
      (clip_segment X0 Y0 Z0 X1 Y1 Z1 AX AY).F = 1) ∧
    (∀ AX AY X0 Y0 Z0 X1 Y1 Z1 : ℚ,
      clipLoop AX AY 0 X0 Y0 Z0 X1 Y1 Z1 = ⟨1, X0, Y0, Z0, X1, Y1, Z1⟩) := by
  constructor
  · intro X0 Y0 Z0 X1 Y1 Z1 AX AY
    exact clipLoop_flag AX AY 99 X0 Y0 Z0 X1 Y1 Z1
  · intro AX AY X0 Y0 Z0 X1 Y1 Z1
    rfl

/-- The camera the demo effectively uses after defaulting: pose zero,
`AX = AY = 1` (a 90° half-angle frustum), screen centre `(80, 60)`,
projection scale 50. -/
def cam0 : Camera := ⟨0, 0, 0, 0, 0, 0, 1, 1, 80, 60, 50⟩

/-- A mesh with one explicit segment from the camera origin `(0,0,0)` to
`(0,0,5)`, identity local transform. -/
def mesh0 : Mesh := ⟨[(0, 0, 0), (0, 0, 5)], [(0, 1)], [], [], 0, 0, 0, 0, 0, 0, 1⟩

/-- Claim C1 (refuted — the code crashes): on a segment with one endpoint
exactly at the camera origin (camera-space `z = 0`) and the other at
`z = 5 > 0`, `clip_segment` accepts the segment unmodified (both region
codes are 0 because `|0| ≤ AX·0`), so `WireframeRenderer.draw_mesh` reaches
`Camera.project` with `z = 0` and Python raises `ZeroDivisionError`
(modelled by `none`) instead of skipping the primitive. -/
theorem wireframe_draw_origin_crash :
    clip_segment 0 0 0 0 0 5 1 1 = ⟨0, 0, 0, 0, 0, 0, 5⟩ ∧
    wireDrawMesh (fun _ => 0) (fun _ => 1) cam0 mesh0 = none := by
  have h0 : regionCode 1 1 0 0 0 = 0 :=
    (regionCode_eq_zero_iff 1 1 0 0 0).mpr (by norm_num)
  have h1 : regionCode 1 1 0 0 5 = 0 :=
    (regionCode_eq_zero_iff 1 1 0 0 5).mpr (by norm_num)
  have hclip : clip_segment 0 0 0 0 0 5 1 1 = ⟨0, 0, 0, 0, 0, 0, 5⟩ := by
    rw [clip_segment, (rfl : (99 : ℕ) = 98 + 1), clipLoop_accept 1 1 98 h0 h1]
  have hp0 : Camera.project cam0 0 0 0 = none := by
    simp [Camera.project]
  have hp1 : Camera.project cam0 0 0 5 = some (80, 60) := by
    rw [Camera.project]
    norm_num [pyInt, cam0]
  have hseg : drawSegment cam0 (0, 0, 0) (0, 0, 5) = none := by
    rw [drawSegment]
    rw [if_neg (by norm_num)]
    have hAX : cam0.AX = 1 := rfl
    have hAY : cam0.AY = 1 := rfl
    simp only [hAX, hAY, hclip, hp0, hp1]
    norm_num
  refine ⟨hclip, ?_⟩
  have hpts : camPoints (fun _ => 0) (fun _ => 1) cam0 mesh0 = [(0, 0, 0), (0, 0, 5)] := by
    simp [camPoints, camPoint, mesh0, cam0, Mesh.local_to_world,
      Camera.world_to_camera, rotate_xyz]
  simp only [wireDrawMesh, hpts]
  rw [if_neg (by simp [mesh0])]
  simp only [show mesh0.segments = [(0, 1)] from rfl]
  have hseg0 : drawSegment cam0 0 (0, 0, 5) = none := hseg
  simp [List.mapM, List.mapM.loop, hseg0]

/-- Claim C2, counterexample: at camera-space point `(1, 0, 3)` with the
default screen (`cx = 80`, `scale = 50`), the true value `80 + 50/3 ≈ 96.67`
rounds to 97, but `Camera.project` (Python `int(...)`) returns 96. -/
theorem project_round_cex :
    Camera.project cam0 1 0 3 ≠
      some (round ((cam0.cx : ℚ) + 1 / 3 * cam0.scale),
            round ((cam0.cy : ℚ) - 0 / 3 * cam0.scale)) := by
  have hL : Camera.project cam0 1 0 3 = some (96, 60) := by
    rw [Camera.project]
    norm_num [pyInt, cam0]
  have hR : round ((cam0.cx : ℚ) + 1 / 3 * cam0.scale) = 97 := by
    have he : ((cam0.cx : ℚ) + 1 / 3 * cam0.scale) = 290 / 3 := by
      norm_num [cam0]
    rw [he]
    norm_num [round_eq]
  intro hcontra
  rw [hL, hR] at hcontra
  norm_num at hcontra

/-- Claim C2 as amended: for `z > 0`, `Camera.project` returns
`int(cx + (x/z)·scale)` and `int(cy − (y/z)·scale)` — truncation toward
zero, not rounding to nearest — with the vertical axis flipped (the `y`
term is subtracted so screen y grows downward).  `pyInt` is characterised
as genuine truncation: its magnitude is the integer part of the magnitude
and its sign agrees with the argument. -/
theorem project_truncates (cam : Camera) (x y z : ℚ) (hz : 0 < z) :
    Camera.project cam x y z =
      some (pyInt ((cam.cx : ℚ) + x / z * cam.scale),
            pyInt ((cam.cy : ℚ) - y / z * cam.scale)) ∧
    ∀ q : ℚ, |(pyInt q : ℚ)| ≤ |q| ∧ |q| < |(pyInt q : ℚ)| + 1 ∧
      (0 ≤ q → 0 ≤ pyInt q) ∧ (q ≤ 0 → pyInt q ≤ 0) := by
  constructor
  · rw [Camera.project, if_neg (by exact ne_of_gt hz)]
  · intro q
    by_cases h : 0 ≤ q
    · have hfl : (0 : ℤ) ≤ ⌊q⌋ := Int.floor_nonneg.mpr h
      have h1 : ((⌊q⌋ : ℤ) : ℚ) ≤ q := Int.floor_le q
      have h2 : q < ⌊q⌋ + 1 := Int.lt_floor_add_one q
      have hfl' : (0 : ℚ) ≤ ((⌊q⌋ : ℤ) : ℚ) := by exact_mod_cast hfl
      refine ⟨?_, ?_, ?_, ?_⟩
      · rw [pyInt, if_pos h, abs_of_nonneg h, abs_of_nonneg hfl']
        exact h1
      · rw [pyInt, if_pos h, abs_of_nonneg h, abs_of_nonneg hfl']
        exact h2
      · intro _
        rw [pyInt, if_pos h]
        exact hfl
      · intro h2'
        have hq0 : q = 0 := le_antisymm h2' h
        simp [pyInt, hq0]
    · push_neg at h
      have hcl : ⌈q⌉ ≤ 0 := Int.ceil_le.mpr (by push_cast; exact h.le)
      have h1 : q ≤ ((⌈q⌉ : ℤ) : ℚ) := Int.le_ceil q
      have h2 : ((⌈q⌉ : ℤ) : ℚ) < q + 1 := Int.ceil_lt_add_one q
      have hcl' : ((⌈q⌉ : ℤ) : ℚ) ≤ 0 := by exact_mod_cast hcl
      refine ⟨?_, ?_, ?_, ?_⟩
      · rw [pyInt, if_neg (not_le.mpr h), abs_of_nonpos h.le, abs_of_nonpos hcl']
        linarith
      · rw [pyInt, if_neg (not_le.mpr h), abs_of_nonpos h.le, abs_of_nonpos hcl']
        linarith
      · intro h2'
        exact absurd h2' (not_le.mpr h)
      · intro _
        rw [pyInt, if_neg (not_le.mpr h)]
        exact hcl

theorem project_truncates_witness :
    (0 : ℚ) < 3 ∧
    (Camera.project cam0 1 0 3 =
        some (pyInt ((cam0.cx : ℚ) + 1 / 3 * cam0.scale),
              pyInt ((cam0.cy : ℚ) - 0 / 3 * cam0.scale)) ∧
      ∀ q : ℚ, |(pyInt q : ℚ)| ≤ |q| ∧ |q| < |(pyInt q : ℚ)| + 1 ∧
        (0 ≤ q → 0 ≤ pyInt q) ∧ (q ≤ 0 → pyInt q ≤ 0)) :=
  ⟨by norm_num, project_truncates cam0 1 0 3 (by norm_num)⟩

lemma length_flatMap_const {α β : Type} (l : List α) (f : α → List β) (k : ℕ)
    (h : ∀ a ∈ l, (f a).length = k) : (l.flatMap f).length = l.length * k := by
  induction l with
  | nil => simp
  | cons a t ih =>
    simp only [List.flatMap_cons, List.length_append, List.length_cons]
    rw [h a (by simp), ih (fun b hb => h b (by simp [hb]))]
    ring

/-- Claim C3, counterexample: a UV-sphere with `lat_steps = 1` and
`lon_steps = 4` has 8 faces (2 per longitude quad, 4 quads in the single
latitude band), not 2. -/
theorem sphere_faces_cex : (generate_sphere_faces 1 4).length ≠ 2 := by decide

/-- Claim C3 as amended: `generate_sphere_mesh_with_faces` produces
`(lat_steps + 1) · lon_steps` vertices and `2 · lat_steps · lon_steps`
triangles (two per quad, i.e. `2 · lon_steps` per latitude band); for
`lat_steps = 1`, `lon_steps = 4` that is 8 vertices and 8 faces. -/
theorem sphere_mesh_counts :
    (∀ (s c : ℚ → ℚ) (piq radius : ℚ) (lat_steps lon_steps : ℕ),
      (generate_sphere_points s c piq radius lat_steps lon_steps).length =
        (lat_steps + 1) * lon_steps) ∧
    (∀ lat_steps lon_steps : ℕ,
      (generate_sphere_faces lat_steps lon_steps).length =
        2 * lat_steps * lon_steps) ∧
    (generate_sphere_points (fun _ => 0) (fun _ => 1) 0 1 1 4).length = 8 ∧
    (generate_sphere_faces 1 4).length = 8 := by
  have hpts : ∀ (s c : ℚ → ℚ) (piq radius : ℚ) (lat_steps lon_steps : ℕ),
      (generate_sphere_points s c piq radius lat_steps lon_steps).length =
        (lat_steps + 1) * lon_steps := by
    intro s c piq radius lat_steps lon_steps
    have h3 := length_flatMap_const (List.range (lat_steps + 1))
      (fun (lat : ℕ) => (List.range lon_steps).map fun (lon : ℕ) =>
        ((radius * s (piq * lat / lat_steps) * c (2 * piq * lon / lon_steps),
          radius * c (piq * lat / lat_steps),
          radius * s (piq * lat / lat_steps) * s (2 * piq * lon / lon_steps)) : Vec3))
      lon_steps
      (fun a _ => by rw [List.length_map, List.length_range])
    rw [List.length_range] at h3
    unfold generate_sphere_points
    exact h3
  have hfcs : ∀ lat_steps lon_steps : ℕ,
      (generate_sphere_faces lat_steps lon_steps).length =
        2 * lat_steps * lon_steps := by
    intro lat_steps lon_steps
    have h2 : ∀ lat : ℕ,
        ((List.range lon_steps).flatMap fun lon =>
          [(sphereIdx lon_steps lat lon, sphereIdx lon_steps (lat + 1) lon,
            sphereIdx lon_steps lat (lon + 1)),
           (sphereIdx lon_steps lat (lon + 1), sphereIdx lon_steps (lat + 1) lon,
            sphereIdx lon_steps (lat + 1) (lon + 1))]).length = lon_steps * 2 := by
      intro lat
      have h1 := length_flatMap_const (List.range lon_steps)
        (fun lon =>
          [(sphereIdx lon_steps lat lon, sphereIdx lon_steps (lat + 1) lon,
            sphereIdx lon_steps lat (lon + 1)),
           (sphereIdx lon_steps lat (lon + 1), sphereIdx lon_steps (lat + 1) lon,
            sphereIdx lon_steps (lat + 1) (lon + 1))])
        2 (fun b _ => rfl)
      rw [List.length_range] at h1
      exact h1
    have h3 := length_flatMap_const (List.range lat_steps)
      (fun lat => (List.range lon_steps).flatMap fun lon =>
        [(sphereIdx lon_steps lat lon, sphereIdx lon_steps (lat + 1) lon,
          sphereIdx lon_steps lat (lon + 1)),
         (sphereIdx lon_steps lat (lon + 1), sphereIdx lon_steps (lat + 1) lon,
          sphereIdx lon_steps (lat + 1) (lon + 1))])
      (lon_steps * 2) (fun a _ => h2 a)
    rw [List.length_range] at h3
    calc (generate_sphere_faces lat_steps lon_steps).length
        = lat_steps * (lon_steps * 2) := h3
      _ = 2 * lat_steps * lon_steps := by ring
  exact ⟨hpts, hfcs, hpts _ _ _ _ _ _, hfcs 1 4⟩

/-- Claim C7: for `phong_intensity`, if N·L = 1 (normal parallel to the unit
light direction) the intensity is `ambient + diffuse` plus the specular term
— which is present exactly when the reflection vector `R = 2(N·L)N − L` has
positive component along the fixed view axis `(0,0,1)`, i.e. `2·nz − lz > 0`
— provided the clamp to `[0,1]` is inactive; and if N·L = −1 (antiparallel)
the diffuse term is clamped to 0, no specular is added, and the intensity is
exactly `ambient` (for `ambient ∈ [0,1]`). -/
theorem phong_parallel_antiparallel (r : PhongCfg) (nx ny nz : ℚ) :
    (nx * r.lx + ny * r.ly + nz * r.lz = 1 →
      0 ≤ r.ambient + r.diffuse +
        (if 0 < 2 * nz - r.lz then (2 * nz - r.lz) ^ r.shininess * r.specular else 0) →
      r.ambient + r.diffuse +
        (if 0 < 2 * nz - r.lz then (2 * nz - r.lz) ^ r.shininess * r.specular else 0) ≤ 1 →
      phong_intensity r nx ny nz =
        r.ambient + r.diffuse +
          (if 0 < 2 * nz - r.lz then (2 * nz - r.lz) ^ r.shininess * r.specular else 0)) ∧
    (nx * r.lx + ny * r.ly + nz * r.lz = -1 → 0 ≤ r.ambient → r.ambient ≤ 1 →
      phong_intensity r nx ny nz = r.ambient) := by
  constructor
  · intro hdot hlo hhi
    simp only [phong_intensity, hdot]
    simp only [if_neg (show ¬(1 : ℚ) < 0 by norm_num)]
    simp only [if_pos (show (0 : ℚ) < 1 by norm_num)]
    simp only [mul_one, one_mul]
    rw [min_eq_right hhi, max_eq_right hlo]
  · intro hdot h0 h1
    simp only [phong_intensity, hdot]
    simp only [if_pos (show (-1 : ℚ) < 0 by norm_num)]
    simp only [if_neg (show ¬(0 : ℚ) < 0 by norm_num), zero_mul, add_zero]
    rw [min_eq_right h1, max_eq_right h0]

/-- The demo's Phong configuration: light `(0,0,-1)` (already unit),
`ambient=0.2`, `diffuse=0.8`, `specular=0.4`, `shininess=32`,
`shade_levels=16`. -/
def phongCfg0 : PhongCfg := ⟨0, 0, -1, 1 / 5, 4 / 5, 2 / 5, 32, 16⟩

theorem phong_parallel_antiparallel_witness :
    ((0 : ℚ) * phongCfg0.lx + 0 * phongCfg0.ly + (-1) * phongCfg0.lz = 1 ∧
     (0 : ℚ) * phongCfg0.lx + 0 * phongCfg0.ly + 1 * phongCfg0.lz = -1) ∧
    phong_intensity phongCfg0 0 0 (-1) = 1 ∧
    phong_intensity phongCfg0 0 0 1 = 1 / 5 := by
  have hpar := (phong_parallel_antiparallel phongCfg0 0 0 (-1)).1
  have hanti := (phong_parallel_antiparallel phongCfg0 0 0 1).2
  refine ⟨⟨by norm_num [phongCfg0], by norm_num [phongCfg0]⟩, ?_, ?_⟩
  · have h := hpar (by norm_num [phongCfg0]) (by norm_num [phongCfg0])
      (by norm_num [phongCfg0])
    rw [h]
    norm_num [phongCfg0]
  · have h := hanti (by norm_num [phongCfg0]) (by norm_num [phongCfg0])
      (by norm_num [phongCfg0])
    rw [h]
    norm_num [phongCfg0]

/-- Claim C8, counterexample: reading the claim's classification
(`nz ≤ 0` ⇒ facing away from the camera) together with its ink assignment
(back-facing triangles get the strictly darker ink), a face with `nz = -1`
would have to receive the darker of the program's two wire inks — which, by
the source's own comment (front faces white, ink 7; hidden lines a dark
colour, ink 1), is ink 1.  The code gives it ink 7, the brighter one. -/
theorem hl_wire_ink_cex :
    hlWireInk (-1) = 7 ∧ hlWireInk 1 = 1 ∧ ¬ hlWireInk (-1) < hlWireInk 1 := by
  refine ⟨?_, ?_, ?_⟩
  · rw [hlWireInk, if_pos (by norm_num)]
  · rw [hlWireInk, if_neg (by norm_num)]
  · rw [hlWireInk, hlWireInk, if_pos (by norm_num), if_neg (by norm_num)]
    norm_num

/-- Claim C8 as amended: in the wireframe-overlay branch every surviving
triangle's three screen edges are outlined, with ink 7 (white) when the
camera-space face normal's z component is non-positive — which in this
convention is the side facing the camera, as the source comments state —
and with the strictly darker ink 1 when it is positive (facing away). -/
theorem hl_wired_edges (p0 p1 p2 : ℤ × ℤ) (nz : ℚ) :
    hlWiredFaceLines p0 p1 p2 nz =
      [(p0, p1, hlWireInk nz), (p1, p2, hlWireInk nz), (p2, p0, hlWireInk nz)] ∧
    (nz ≤ 0 → hlWireInk nz = 7) ∧ (0 < nz → hlWireInk nz = 1) ∧ (1 : ℤ) < 7 := by
  refine ⟨rfl, ?_, ?_, by norm_num⟩
  · intro h
    rw [hlWireInk, if_pos h]
  · intro h
    rw [hlWireInk, if_neg (not_le.mpr h)]

theorem hl_wired_edges_witness :
    ((-1 : ℚ) ≤ 0 ∧ (0 : ℚ) < 1) ∧
    (hlWiredFaceLines (0, 0) (1, 0) (0, 1) (-1) =
      [((0, 0), (1, 0), hlWireInk (-1)), ((1, 0), (0, 1), hlWireInk (-1)),
       ((0, 1), (0, 0), hlWireInk (-1))] ∧
     hlWireInk (-1) = 7 ∧ hlWireInk 1 = 1) := by
  refine ⟨⟨by norm_num, by norm_num⟩, (hl_wired_edges (0, 0) (1, 0) (0, 1) (-1)).1,
    (hl_wired_edges (0, 0) (1, 0) (0, 1) (-1)).2.1 (by norm_num),
    (hl_wired_edges (0, 0) (1, 0) (0, 1) 1).2.2.1 (by norm_num)⟩

/-- Claim C9: the ordered-dithering shade choice is a pure deterministic
function of the pixel coordinates and the computed intensity.  With the
interpreter's `random`-module state threaded explicitly, the committed code
(`hash01`, not `random.random()`) neither reads nor advances that state: two
renders of the same frame from arbitrary different random states produce the
identical shade index at every pixel, equal to the pure function
`ditherShade` of `(levels, c, x, y)` alone. -/
theorem dither_deterministic :
    ∀ (rand01 : ℕ → ℚ × ℕ) (r1 r2 : ℕ) (levels : ℕ) (c : ℚ) (x y : ℕ),
      (ditherPixel rand01 r1 levels c x y).1 = ditherShade levels c x y ∧
      (ditherPixel rand01 r1 levels c x y).1 = (ditherPixel rand01 r2 levels c x y).1 ∧
      (ditherPixel rand01 r1 levels c x y).2 = r1 :=
  fun _ _ _ _ _ _ _ => ⟨rfl, rfl, rfl⟩

/-- Claim C10: the z-buffered Gouraud and Phong `draw_mesh` never read
`Mesh.vertex_normals` — replacing the stored normals changes nothing in the
per-vertex intensities (Gouraud) or per-vertex normals (Phong) they feed to
their rasteriser, which are instead recomputed from the camera-space
cross-product face normals accumulated per vertex (shown explicitly for a
one-face mesh) with zero-length sums defaulting to `(0,0,1)`; while the
scanline Gouraud renderer maps its `compute_intensity` directly over
`Mesh.vertex_normals`, and its output genuinely depends on them. -/
theorem z_renderers_ignore_stored_normals :
    (∀ (sind cosd : ℚ → ℚ) (normF : Vec3 → Vec3) (cam : Camera) (r : ZGouraudCfg)
       (m : Mesh) (vn : List Vec3),
      zgDrawMeshIntens sind cosd normF cam r { m with vertex_normals := vn } =
        zgDrawMeshIntens sind cosd normF cam r m) ∧
    (∀ (sind cosd : ℚ → ℚ) (normF : Vec3 → Vec3) (cam : Camera) (m : Mesh)
       (vn : List Vec3),
      phongDrawMeshNormals sind cosd normF cam { m with vertex_normals := vn } =
        phongDrawMeshNormals sind cosd normF cam m) ∧
    (∀ (ambient lx ly lz : ℚ) (m : Mesh),
      gouraudVertexIntens ambient lx ly lz m =
        m.vertex_normals.map (GouraudCfg.compute_intensity ambient lx ly lz)) ∧
    (∀ p0 p1 p2 : Vec3,
      accumVertexNormals [p0, p1, p2] [(0, 1, 2)] =
        [cross (vsub p1 p0) (vsub p2 p0), cross (vsub p1 p0) (vsub p2 p0),
         cross (vsub p1 p0) (vsub p2 p0)]) ∧
    (∃ (vn1 vn2 : List Vec3) (m : Mesh) (ambient lx ly lz : ℚ),
      gouraudVertexIntens ambient lx ly lz { m with vertex_normals := vn1 } ≠
        gouraudVertexIntens ambient lx ly lz { m with vertex_normals := vn2 }) := by
  refine ⟨fun _ _ _ _ _ _ _ => rfl, fun _ _ _ _ _ _ => rfl, fun _ _ _ _ _ => rfl,
    ?_, ?_⟩
  · intro p0 p1 p2
    simp [accumVertexNormals, addAt, vadd]
  · refine ⟨[(0, 0, 1)], [(0, 0, -1)], mesh0, 0, 0, 0, 1, ?_⟩
    simp [gouraudVertexIntens, GouraudCfg.compute_intensity]
    norm_num

/-- The sequential clamp in `ZBufferedGouraudRenderer._draw_triangle`:
`if c < 0.0: c = 0.0` then `if c > 1.0: c = 1.0`. -/
def clamp01 (c : ℚ) : ℚ := if c < 0 then 0 else if c > 1 then 1 else c

/-- One input triangle of `ZBufferedGouraudRenderer._draw_triangle`: screen
positions `p0 p1 p2` as `(x, y)`, camera-space depths `z0 z1 z2`, vertex
intensities `c0 c1 c2`. -/
structure Tri where
  x0 : ℚ
  y0 : ℚ
  z0 : ℚ
  c0 : ℚ
  x1 : ℚ
  y1 : ℚ
  z1 : ℚ
  c1 : ℚ
  x2 : ℚ
  y2 : ℚ
  z2 : ℚ
  c2 : ℚ

/-- The barycentric denominator `(y1-y2)*(x0-x2) + (x2-x1)*(y0-y2)`. -/
def triDenom (t : Tri) : ℚ :=
  (t.y1 - t.y2) * (t.x0 - t.x2) + (t.x2 - t.x1) * (t.y0 - t.y2)

/-- Barycentric weight `w0` at sample point `(xx, yy)` (the source multiplies
by `inv_denom = 1.0 / denom`). -/
def triW0 (t : Tri) (xx yy : ℚ) : ℚ :=
  ((t.y1 - t.y2) * (xx - t.x2) + (t.x2 - t.x1) * (yy - t.y2)) * (1 / triDenom t)

def triW1 (t : Tri) (xx yy : ℚ) : ℚ :=
  ((t.y2 - t.y0) * (xx - t.x2) + (t.x0 - t.x2) * (yy - t.y2)) * (1 / triDenom t)

def triW2 (t : Tri) (xx yy : ℚ) : ℚ := 1 - triW0 t xx yy - triW1 t xx yy

/-- Interpolated depth `z = w0*z0 + w1*z1 + w2*z2`. -/
def triZ (t : Tri) (xx yy : ℚ) : ℚ :=
  triW0 t xx yy * t.z0 + triW1 t xx yy * t.z1 + triW2 t xx yy * t.z2

/-- Interpolated intensity `c = w0*c0 + w1*c1 + w2*c2`. -/
def triC (t : Tri) (xx yy : ℚ) : ℚ :=
  triW0 t xx yy * t.c0 + triW1 t xx yy * t.c1 + triW2 t xx yy * t.c2

/-- `shade = int(c * (shade_levels - 1))` after clamping `c` to `[0, 1]`. -/
def triShade (levels : ℕ) (t : Tri) (xx yy : ℚ) : ℤ :=
  pyInt (clamp01 (triC t xx yy) * ((levels : ℚ) - 1))

/-- `max(int(math.floor(min(x0, x1, x2))), 0)`. -/
def triMinX (t : Tri) : ℤ := max ⌊min t.x0 (min t.x1 t.x2)⌋ 0

/-- `min(int(math.ceil(max(x0, x1, x2))), w - 1)`. -/
def triMaxX (w : ℕ) (t : Tri) : ℤ := min ⌈max t.x0 (max t.x1 t.x2)⌉ ((w : ℤ) - 1)

def triMinY (t : Tri) : ℤ := max ⌊min t.y0 (min t.y1 t.y2)⌋ 0

def triMaxY (h : ℕ) (t : Tri) : ℤ := min ⌈max t.y0 (max t.y1 t.y2)⌉ ((h : ℤ) - 1)

/-- The inclusive integer interval `[a, b]` as a list. -/
def intRange (a b : ℤ) : List ℤ := (List.range (b + 1 - a).toNat).map fun k => a + k

/-- The pixels visited by the rasteriser loops, `y` outer from `min_y` to
`max_y`, `x` inner from `min_x` to `max_x`, as `(x, y)` pairs. -/
def boxPixels (w h : ℕ) (t : Tri) : List (ℤ × ℤ) :=
  (intRange (triMinY t) (triMaxY h t)).flatMap fun y =>
    (intRange (triMinX t) (triMaxX w t)).map fun x => (x, y)

/-- The shared z-buffer/pixel state: for every screen coordinate the current
depth-buffer entry and the current pixel colour index. -/
abbrev ZState : Type := (ℤ × ℤ) → ℚ × ℤ

/-- The body of the per-pixel loop of
`ZBufferedGouraudRenderer._draw_triangle` at pixel `p`, sampling the pixel
centre `(x + 0.5, y + 0.5)`: skip when any barycentric weight is negative,
when the interpolated depth is `z ≤ 0`, or when `z` is not strictly closer
than the stored depth; otherwise commit the new depth and write the shaded
pixel. -/
def pixelStep (levels : ℕ) (t : Tri) (p : ℤ × ℤ) (v : ℚ × ℤ) : ℚ × ℤ :=
  let xx : ℚ := p.1 + 1 / 2
  let yy : ℚ := p.2 + 1 / 2
  if triW0 t xx yy < 0 ∨ triW1 t xx yy < 0 ∨ triW2 t xx yy < 0 then v
  else if triZ t xx yy ≤ 0 then v
  else if v.1 ≤ triZ t xx yy then v
  else (triZ t xx yy, triShade levels t xx yy)

/-- `ZBufferedGouraudRenderer._draw_triangle`: skip degenerate triangles
(`denom == 0`), skip an empty clamped bounding box, otherwise run the
per-pixel loop over the box, updating depth buffer and pixels in place. -/
def drawTriangle (levels w h : ℕ) (t : Tri) (S : ZState) : ZState :=
  if triDenom t = 0 then S
  else if triMinX t > triMaxX w t ∨ triMinY t > triMaxY h t then S
  else
    (boxPixels w h t).foldl
      (fun S p => Function.update S p (pixelStep levels t p (S p))) S

/-- The pixel is inside the triangle at its centre sample: no negative
barycentric weight (the `continue` test of the source, negated). -/
def triCoveredAt (t : Tri) (p : ℤ × ℤ) : Prop :=
  ¬(triW0 t (p.1 + 1 / 2) (p.2 + 1 / 2) < 0 ∨
    triW1 t (p.1 + 1 / 2) (p.2 + 1 / 2) < 0 ∨
    triW2 t (p.1 + 1 / 2) (p.2 + 1 / 2) < 0)

instance (t : Tri) (p : ℤ × ℤ) : Decidable (triCoveredAt t p) := by
  unfold triCoveredAt
  infer_instance

/-- The interpolated depth of triangle `t` at pixel `p`'s centre. -/
def triDepthAt (t : Tri) (p : ℤ × ℤ) : ℚ := triZ t (p.1 + 1 / 2) (p.2 + 1 / 2)

def triShadeAt (levels : ℕ) (t : Tri) (p : ℤ × ℤ) : ℤ :=
  triShade levels t (p.1 + 1 / 2) (p.2 + 1 / 2)

/-- Abstract form of one guarded depth-buffer write: when `P` holds and `z`
beats the stored depth, commit `(z, s)`, else leave the cell alone. -/
def zwrite (z : ℚ) (s : ℤ) (P : Prop) [Decidable P] (v : ℚ × ℤ) : ℚ × ℤ :=
  if P ∧ z < v.1 then (z, s) else v

/-- `drawTriangle` acts at `p` exactly when all its guards pass and `p` is in
the visited box. -/
def triActiveAt (w h : ℕ) (t : Tri) (p : ℤ × ℤ) : Prop :=
  triDenom t ≠ 0 ∧ ¬(triMinX t > triMaxX w t ∨ triMinY t > triMaxY h t) ∧
  p ∈ boxPixels w h t ∧ triCoveredAt t p ∧ 0 < triDepthAt t p

instance (w h : ℕ) (t : Tri) (p : ℤ × ℤ) : Decidable (triActiveAt w h t p) := by
  unfold triActiveAt
  infer_instance

lemma zwrite_idem (z : ℚ) (s : ℤ) (P : Prop) [Decidable P] (v : ℚ × ℤ) :
    zwrite z s P (zwrite z s P v) = zwrite z s P v := by
  unfold zwrite
  by_cases h : P ∧ z < v.1
  · rw [if_pos h, if_neg]
    intro hc
    exact absurd hc.2 (lt_irrefl z)
  · rw [if_neg h, if_neg h]

lemma zwrite_comm (za zb : ℚ) (sa sb : ℤ) (Pa Pb : Prop) [Decidable Pa] [Decidable Pb]
    (hne : Pa → Pb → za ≠ zb) (v : ℚ × ℤ) :
    zwrite zb sb Pb (zwrite za sa Pa v) = zwrite za sa Pa (zwrite zb sb Pb v) := by
  unfold zwrite
  by_cases hA : Pa ∧ za < v.1 <;> by_cases hB : Pb ∧ zb < v.1
  · rw [if_pos hA, if_pos hB]
    dsimp only
    have hz := hne hA.1 hB.1
    rcases lt_trichotomy za zb with h | h | h
    · rw [if_neg (fun hc => absurd hc.2 (not_lt.mpr h.le)), if_pos ⟨hA.1, h⟩]
    · exact absurd h hz
    · rw [if_pos ⟨hB.1, h⟩, if_neg (fun hc => absurd hc.2 (not_lt.mpr h.le))]
  · rw [if_pos hA, if_neg hB]
    dsimp only
    rw [if_pos hA, if_neg (fun hc => hB ⟨hc.1, lt_trans hc.2 hA.2⟩)]
  · rw [if_neg hA, if_pos hB]
    dsimp only
    rw [if_neg (fun hc => hA ⟨hc.1, lt_trans hc.2 hB.2⟩)]
  · rw [if_neg hA, if_neg hB, if_neg hA]

lemma pixelStep_eq_zwrite (levels : ℕ) (t : Tri) (p : ℤ × ℤ) (v : ℚ × ℤ) :
    pixelStep levels t p v =
      zwrite (triDepthAt t p) (triShadeAt levels t p)
        (triCoveredAt t p ∧ 0 < triDepthAt t p) v := by
  simp only [pixelStep, zwrite, triCoveredAt, triDepthAt, triShadeAt]
  by_cases h1 : triW0 t (p.1 + 1 / 2) (p.2 + 1 / 2) < 0 ∨
      triW1 t (p.1 + 1 / 2) (p.2 + 1 / 2) < 0 ∨
      triW2 t (p.1 + 1 / 2) (p.2 + 1 / 2) < 0
  · rw [if_pos h1, if_neg (fun hc => hc.1.1 h1)]
  rw [if_neg h1]
  by_cases h2 : triZ t (p.1 + 1 / 2) (p.2 + 1 / 2) ≤ 0
  · rw [if_pos h2, if_neg (fun hc => absurd hc.1.2 (not_lt.mpr h2))]
  rw [if_neg h2]
  by_cases h3 : v.1 ≤ triZ t (p.1 + 1 / 2) (p.2 + 1 / 2)
  · rw [if_pos h3, if_neg (fun hc => absurd hc.2 (not_lt.mpr h3))]
  rw [if_neg h3, if_pos ⟨⟨h1, lt_of_not_le h2⟩, lt_of_not_le h3⟩]

lemma pixelStep_idem (levels : ℕ) (t : Tri) (p : ℤ × ℤ) (v : ℚ × ℤ) :
    pixelStep levels t p (pixelStep levels t p v) = pixelStep levels t p v := by
  rw [pixelStep_eq_zwrite, pixelStep_eq_zwrite]
  exact zwrite_idem _ _ _ _

lemma foldl_update_eval (f : (ℤ × ℤ) → (ℚ × ℤ) → ℚ × ℤ)
    (hf : ∀ q v, f q (f q v) = f q v) :
    ∀ (l : List (ℤ × ℤ)) (S : ZState) (p : ℤ × ℤ),
      (l.foldl (fun S q => Function.update S q (f q (S q))) S) p =
        if p ∈ l then f p (S p) else S p := by
  intro l
  induction l with
  | nil => intro S p; simp
  | cons a l ih =>
    intro S p
    rw [List.foldl_cons, ih]
    by_cases hpa : p = a
    · subst hpa
      rw [Function.update_same]
      by_cases hpl : p ∈ l
      · rw [if_pos hpl, if_pos (by simp [hpl]), hf]
      · rw [if_neg hpl, if_pos (by simp)]
    · rw [Function.update_noteq hpa]
      by_cases hpl : p ∈ l
      · rw [if_pos hpl, if_pos (by simp [hpl])]
      · rw [if_neg hpl, if_neg (by simp [hpa, hpl])]

/-- The pointwise effect of `drawTriangle` at one pixel. -/
def effStep (levels w h : ℕ) (t : Tri) (p : ℤ × ℤ) (v : ℚ × ℤ) : ℚ × ℤ :=
  if triDenom t = 0 then v
  else if triMinX t > triMaxX w t ∨ triMinY t > triMaxY h t then v
  else if p ∈ boxPixels w h t then pixelStep levels t p v else v

lemma effStep_eq_zwrite (levels w h : ℕ) (t : Tri) (p : ℤ × ℤ) (v : ℚ × ℤ) :
    effStep levels w h t p v =
      zwrite (triDepthAt t p) (triShadeAt levels t p) (triActiveAt w h t p) v := by
  rw [effStep]
  by_cases h1 : triDenom t = 0
  · rw [if_pos h1, zwrite, if_neg (fun hc => hc.1.1 h1)]
  rw [if_neg h1]
  by_cases h2 : triMinX t > triMaxX w t ∨ triMinY t > triMaxY h t
  · rw [if_pos h2, zwrite, if_neg (fun hc => hc.1.2.1 h2)]
  rw [if_neg h2]
  by_cases h3 : p ∈ boxPixels w h t
  · rw [if_pos h3, pixelStep_eq_zwrite, zwrite, zwrite]
    exact if_congr (by
      constructor
      · intro hc
        exact ⟨⟨h1, h2, h3, hc.1.1, hc.1.2⟩, hc.2⟩
      · intro hc
        exact ⟨⟨hc.1.2.2.2.1, hc.1.2.2.2.2⟩, hc.2⟩) rfl rfl
  · rw [if_neg h3, zwrite, if_neg (fun hc => h3 hc.1.2.2.1)]

lemma drawTriangle_apply (levels w h : ℕ) (t : Tri) (S : ZState) (p : ℤ × ℤ) :
    drawTriangle levels w h t S p = effStep levels w h t p (S p) := by
  rw [drawTriangle, effStep]
  by_cases h1 : triDenom t = 0
  · rw [if_pos h1, if_pos h1]
  rw [if_neg h1, if_neg h1]
  by_cases h2 : triMinX t > triMaxX w t ∨ triMinY t > triMaxY h t
  · rw [if_pos h2, if_pos h2]
  rw [if_neg h2, if_neg h2]
  rw [foldl_update_eval (pixelStep levels t) (pixelStep_idem levels t)]

/-- Claim C6: the z-buffered rasteriser's occlusion is order-independent —
for two triangles whose interpolated depths differ at every pixel covered by
both, drawing `A` then `B` with `_draw_triangle` produces exactly the same
final depth buffer and pixel colours as drawing `B` then `A`, from any
starting state. -/
theorem zbuffer_order_independent (levels w h : ℕ) (A B : Tri)
    (hne : ∀ p : ℤ × ℤ, triCoveredAt A p → triCoveredAt B p →
      triDepthAt A p ≠ triDepthAt B p) :
    ∀ S : ZState,
      drawTriangle levels w h B (drawTriangle levels w h A S) =
        drawTriangle levels w h A (drawTriangle levels w h B S) := by
  intro S
  funext p
  rw [drawTriangle_apply, drawTriangle_apply, drawTriangle_apply, drawTriangle_apply,
    effStep_eq_zwrite, effStep_eq_zwrite, effStep_eq_zwrite, effStep_eq_zwrite]
  exact zwrite_comm _ _ _ _ _ _
    (fun ha hb => hne p ha.2.2.2.1 hb.2.2.2.1) (S p)

/-- A screen triangle `(0,0)-(4,0)-(0,4)` with all three vertex depths 1 and
intensity 1. -/
def triA : Tri := ⟨0, 0, 1, 1, 4, 0, 1, 1, 0, 4, 1, 1⟩

/-- The same screen triangle with all three vertex depths 2 and intensity 0. -/
def triB : Tri := ⟨0, 0, 2, 0, 4, 0, 2, 0, 0, 4, 2, 0⟩

theorem zbuffer_order_independent_witness :
    (∀ p : ℤ × ℤ, triCoveredAt triA p → triCoveredAt triB p →
      triDepthAt triA p ≠ triDepthAt triB p) ∧
    drawTriangle 8 4 4 triB (drawTriangle 8 4 4 triA (fun _ => (10 ^ 9, 0))) =
      drawTriangle 8 4 4 triA (drawTriangle 8 4 4 triB (fun _ => (10 ^ 9, 0))) := by
  have hp : ∀ p : ℤ × ℤ, triCoveredAt triA p → triCoveredAt triB p →
      triDepthAt triA p ≠ triDepthAt triB p := by
    intro p _ _
    have hA : triDepthAt triA p = 1 := by
      simp only [triDepthAt, triZ, triW2, triA]
      ring
    have hB : triDepthAt triB p = 2 := by
      simp only [triDepthAt, triZ, triW2, triB]
      ring
    rw [hA, hB]
    norm_num
  exact ⟨hp, zbuffer_order_independent 8 4 4 triA triB hp (fun _ => (10 ^ 9, 0))⟩
